import Mathlib

/-!
# Verification of the guest-photo-upload backend core

A shallow embedding, in Lean 4, of the token-gated upload admission and
quota-enforcement pipeline of the `guestphotoupload-backend` repository,
together with its asynchronous relay worker, and proofs of the frozen
claims about that code.

Conventions of the embedding:
* JavaScript strings are `List Char`; timestamps (`Date.now()`-style
  millisecond clocks) are `Int`; byte counts are `Nat`; the floating-point
  gigabyte arithmetic of the quota evaluator is embedded over `ℚ` (the
  divisions by `1024³` are exact there, and no claim depends on float
  rounding).
* Asynchronous database and filesystem effects are explicit state passing
  over record types holding the relevant tables; fallible steps (the
  Google Drive adapter calls, the folder-resolution step) are oracle
  parameters, and a pass that can abort returns `Except`.
* Each definition is translated from the source file named in its doc
  comment.
-/

namespace GuestPhoto

/-! ## Token Codec (server.js: token mint in `POST /api/tokens`, `validateToken`) -/

/-- The sixteen lowercase hex digits, the alphabet of
`crypto.randomBytes(n).toString('hex')` and of a Node HMAC `digest('hex')`. -/
def hexDigits : List Char := "0123456789abcdef".toList

/-- Hex digit for a nibble value (out-of-range values never occur). -/
def hexDigit (n : Nat) : Char := hexDigits.getD n 'f'

/-- `Buffer.toString('hex')`: two lowercase hex digits per byte. -/
def hexEncode : List (Fin 256) → List Char
  | [] => []
  | b :: bs => hexDigit (b.val / 16) :: hexDigit (b.val % 16) :: hexEncode bs

/-- Token mint of `POST /api/tokens` (server.js):
`tokenString = crypto.randomBytes(32).toString('hex')` and
`secureToken = tokenString + '.' + hmacSha256Hex(tokenData).substring(0, 16)`.
The 32 random identifier bytes and the 32 HMAC-SHA256 digest bytes are
parameters of the embedding (the cryptographic primitives themselves are
not re-modelled; only their output sizes and hex alphabet matter here). -/
def mint (idBytes digestBytes : List (Fin 256)) : List Char :=
  hexEncode idBytes ++ '.' :: (hexEncode digestBytes).take 16

/-- JavaScript `token.split('.')`: splits into the (possibly empty)
maximal dot-free segments; `''.split('.')` is `['']`. -/
def splitOnDot : List Char → List (List Char)
  | [] => [[]]
  | c :: cs =>
    if c = '.' then [] :: splitOnDot cs
    else (c :: (splitOnDot cs).headD []) :: (splitOnDot cs).tail

/-- `validateToken` (server.js): rejects a falsy (empty) token, splits on
`'.'`, requires exactly two parts of lengths 64 and 16.  No signature is
re-derived. -/
def validateToken (token : List Char) : Bool :=
  if token.isEmpty then false
  else
    match splitOnDot token with
    | [a, b] => a.length == 64 && b.length == 16
    | _ => false

theorem splitOnDot_no_dot (s : List Char) (h : '.' ∉ s) : splitOnDot s = [s] := by
  induction s with
  | nil => rfl
  | cons c cs ih =>
    have hc : ¬ c = '.' := fun hc => h (hc ▸ List.mem_cons_self c cs)
    have hcs : '.' ∉ cs := fun hm => h (List.mem_cons_of_mem c hm)
    simp [splitOnDot, hc, ih hcs]

theorem splitOnDot_append (s1 s2 : List Char) (h : '.' ∉ s1) :
    splitOnDot (s1 ++ '.' :: s2) = s1 :: splitOnDot s2 := by
  induction s1 with
  | nil => simp [splitOnDot]
  | cons c cs ih =>
    have hc : ¬ c = '.' := fun hc => h (hc ▸ List.mem_cons_self c cs)
    have hcs : '.' ∉ cs := fun hm => h (List.mem_cons_of_mem c hm)
    simp [splitOnDot, hc, ih hcs]

theorem hexDigit_mem (n : Nat) : hexDigit n ∈ hexDigits := by
  by_cases h : n < hexDigits.length
  · rw [hexDigit, List.getD_eq_getElem hexDigits 'f' h]
    exact List.getElem_mem h
  · have h' : hexDigits.length ≤ n := Nat.le_of_not_lt h
    have hd : hexDigits.getD n 'f' = 'f' := by
      simp [List.getD_eq_getElem?_getD, List.getElem?_eq_none h']
    rw [hexDigit, hd]
    decide

theorem hexDigit_ne_dot (n : Nat) : hexDigit n ≠ '.' := by
  intro h
  have := hexDigit_mem n
  rw [h] at this
  exact absurd this (by decide)

theorem hexEncode_mem (bs : List (Fin 256)) (c : Char) (h : c ∈ hexEncode bs) :
    c ∈ hexDigits := by
  induction bs with
  | nil => simp [hexEncode] at h
  | cons b bs ih =>
    simp only [hexEncode, List.mem_cons] at h
    rcases h with h | h | h
    · exact h ▸ hexDigit_mem _
    · exact h ▸ hexDigit_mem _
    · exact ih h

theorem dot_not_mem_hexEncode (bs : List (Fin 256)) : '.' ∉ hexEncode bs := by
  intro h
  have := hexEncode_mem bs '.' h
  exact absurd this (by decide)

theorem hexEncode_length (bs : List (Fin 256)) :
    (hexEncode bs).length = 2 * bs.length := by
  induction bs with
  | nil => rfl
  | cons b bs ih => simp [hexEncode, ih]; omega

theorem validateToken_segments (s1 s2 : List Char)
    (h1 : '.' ∉ s1) (h2 : '.' ∉ s2)
    (hl1 : s1.length = 64) (hl2 : s2.length = 16) :
    validateToken (s1 ++ '.' :: s2) = true := by
  have hsplit : splitOnDot (s1 ++ '.' :: s2) = [s1, s2] := by
    rw [splitOnDot_append s1 s2 h1, splitOnDot_no_dot s2 h2]
  have hne : (s1 ++ '.' :: s2).isEmpty = false := by
    cases s1 <;> simp [List.isEmpty]
  simp [validateToken, hne, hsplit, hl1, hl2]

/-- CLAIM C6.  Every token produced by `mint` has the fixed shape
`[64 hex].[16 hex]` and passes the shape check `validateToken`
(the spec's `verifyShape`); moreover, replacing any single character of
either segment by any character other than `'.'` — the mutations that
preserve the two segment lengths — still passes `validateToken`, so shape
validation alone does not detect forgery. -/
theorem c6_mint_shape (idBytes digestBytes : List (Fin 256))
    (hid : idBytes.length = 32) (hdg : digestBytes.length = 32) :
    splitOnDot (mint idBytes digestBytes)
      = [hexEncode idBytes, (hexEncode digestBytes).take 16] ∧
    (hexEncode idBytes).length = 64 ∧
    ((hexEncode digestBytes).take 16).length = 16 ∧
    (∀ c ∈ mint idBytes digestBytes, c = '.' ∨ c ∈ hexDigits) ∧
    validateToken (mint idBytes digestBytes) = true ∧
    (∀ i c, c ≠ '.' →
      validateToken
        (((hexEncode idBytes).set i c) ++ '.' :: (hexEncode digestBytes).take 16)
        = true ∧
      validateToken
        ((hexEncode idBytes) ++ '.' :: (((hexEncode digestBytes).take 16).set i c))
        = true) := by
  have hnd1 : '.' ∉ hexEncode idBytes := dot_not_mem_hexEncode idBytes
  have hnd2 : '.' ∉ (hexEncode digestBytes).take 16 := fun h =>
    dot_not_mem_hexEncode digestBytes (List.take_subset 16 _ h)
  have hl1 : (hexEncode idBytes).length = 64 := by
    rw [hexEncode_length, hid]
  have hl2 : ((hexEncode digestBytes).take 16).length = 16 := by
    rw [List.length_take, hexEncode_length, hdg]
    decide
  refine ⟨?_, hl1, hl2, ?_, ?_, ?_⟩
  · rw [mint, splitOnDot_append _ _ hnd1, splitOnDot_no_dot _ hnd2]
  · intro c hc
    rw [mint] at hc
    rcases List.mem_append.mp hc with h | h
    · exact Or.inr (hexEncode_mem _ _ h)
    · rcases List.mem_cons.mp h with h | h
      · exact Or.inl h
      · exact Or.inr (hexEncode_mem _ _ (List.take_subset 16 _ h))
  · exact validateToken_segments _ _ hnd1 hnd2 hl1 hl2
  · intro i c hc
    have hset1 : '.' ∉ (hexEncode idBytes).set i c := by
      intro h
      rcases List.mem_or_eq_of_mem_set h with h | h
      · exact hnd1 h
      · exact hc h.symm
    have hset2 : '.' ∉ ((hexEncode digestBytes).take 16).set i c := by
      intro h
      rcases List.mem_or_eq_of_mem_set h with h | h
      · exact hnd2 h
      · exact hc h.symm
    constructor
    · exact validateToken_segments _ _ hset1 hnd2 (by rw [List.length_set, hl1]) hl2
    · exact validateToken_segments _ _ hnd1 hset2 hl1 (by rw [List.length_set, hl2])

/-- A concrete 32-byte identifier for witnesses. -/
def idSample : List (Fin 256) := List.replicate 32 (171 : Fin 256)

/-- A concrete 32-byte HMAC digest for witnesses. -/
def digestSample : List (Fin 256) := List.replicate 32 (60 : Fin 256)

/-- Witness for C6: the theorem applied to a concrete 32-byte identifier
and digest; in particular the minted token passes `validateToken`. -/
theorem c6_mint_shape_witness :
    idSample.length = 32 ∧ digestSample.length = 32 ∧
    validateToken (mint idSample digestSample) = true :=
  ⟨by decide, by decide,
    (c6_mint_shape idSample digestSample (by decide) (by decide)).2.2.2.2.1⟩

/-! ## Data model (database.js tables, as read by the core) -/

/-- Row of `upload_tokens` joined with its owner, as returned by
`Database.getTokenByValue` (database.js); only the fields the admission
handler reads are kept. -/
structure TokenRecord where
  token : List Char
  userId : Nat
  eventName : List Char
  maxUploads : Nat
  expiresAt : Option Int
deriving DecidableEq

/-- Row of `uploads` as created by `db.createUpload` in the admission
handler (server.js passes `user_id, token, filename, originalname, path,
guestName, guestMessage`). -/
structure UploadRecord where
  userId : Nat
  token : List Char
  filename : List Char
  originalName : List Char
  filePath : List Char
  guestName : List Char
  guestMessage : List Char
deriving DecidableEq

/-- One entry of `req.files` after multer's disk storage stage. -/
structure IncomingFile where
  filename : List Char
  originalname : List Char
  path : List Char
  size : Nat
deriving DecidableEq

/-- Active `user_subscriptions` row joined with its plan, as returned by
`Database.getUserSubscription` (database.js); `maxFiles = none` embeds a
NULL `sp.max_files`. -/
structure Subscription where
  id : Nat
  currentPeriodEnd : Int
  maxFiles : Option Nat
  maxStorageGb : ℚ
deriving DecidableEq

/-- Row of `usage_tracking` for one user and subscription. -/
structure Usage where
  fileCount : Nat
  storageUsedGb : ℚ
deriving DecidableEq

/-- The persistent state visible to the admission path and the quota
evaluator: the `upload_tokens` and `uploads` tables, the local temporary
upload directory, and the subscription/usage tables (keyed by user id,
and by user id × subscription id respectively). -/
structure ServerState where
  tokens : List TokenRecord
  uploads : List UploadRecord
  localFiles : List (List Char)
  subs : List (Nat × Subscription)
  usage : List (Nat × Nat × Usage)
deriving DecidableEq

/-- `Database.getTokenByValue` (database.js): SELECT of the
`upload_tokens` row whose `token` column equals the literal string. -/
def getTokenByValue (s : ServerState) (tok : List Char) : Option TokenRecord :=
  s.tokens.find? (fun r => r.token == tok)

/-- Modelled from the spec: `getUploadsByToken` is called by the admission
handler but its implementation is absent from the repository snapshot
(only callers appear).  Per the spec, a token's running upload count is
the number of UploadRecords referencing it, so the call returns the
upload rows whose token reference equals the given token. -/
def getUploadsByToken (s : ServerState) (tok : List Char) : List UploadRecord :=
  s.uploads.filter (fun u => u.token == tok)

/-- `Database.getUserSubscription` (database.js): the latest
`user_subscriptions` row with `status = 'active'` for the user, joined
with its plan; the state holds at most one such row per user. -/
def getUserSubscription (s : ServerState) (userId : Nat) : Option Subscription :=
  (s.subs.find? (fun p => p.1 == userId)).map (fun p => p.2)

/-- The `usage_tracking` SELECT inside `Database.checkUsageLimits`
(database.js): the row for this user and subscription, if any. -/
def getUsageRow (s : ServerState) (userId subId : Nat) : Option Usage :=
  (s.usage.find? (fun p => p.1 == userId && p.2.1 == subId)).map (fun p => p.2.2)

/-! ## Quota Evaluator (`Database.checkUsageLimits`, database.js) -/

/-- The four denial message templates of `Database.checkUsageLimits`,
one constructor per template:
`'No active subscription'`, `'Subscription expired'`,
`'File limit exceeded (N files)'`, `'Storage limit exceeded (GGB)'`. -/
inductive DenyReason where
  | noActiveSubscription
  | subscriptionExpired
  | fileLimitExceeded (maxFiles : Nat)
  | storageLimitExceeded (maxStorageGb : ℚ)
deriving DecidableEq

/-- Result of `Database.checkUsageLimits`: `{allowed:false, reason}` or
`{allowed:true, usage:{currentFiles, currentStorageGB, maxFiles,
maxStorageGB}}`. -/
inductive QuotaResult where
  | denied (reason : DenyReason)
  | allowed (currentFiles : Nat) (currentStorageGb : ℚ)
      (maxFiles : Option Nat) (maxStorageGb : ℚ)
deriving DecidableEq

/-- `fileSize / (1024 * 1024 * 1024)` (database.js), exact over `ℚ`. -/
def bytesToGb (n : Nat) : ℚ := (n : ℚ) / (1024 * 1024 * 1024)

/-- The JavaScript condition
`subscription.max_files && currentFiles >= subscription.max_files`:
a NULL (`none`) or zero `max_files` is falsy and disables the check. -/
def fileLimitHit (maxFiles : Option Nat) (current : Nat) : Bool :=
  match maxFiles with
  | none => false
  | some m => !(m == 0) && decide (m ≤ current)

/-- `Database.checkUsageLimits(userId, fileSize)` (database.js): denies
without an active subscription row; denies when `now` is past
`current_period_end`; reads the usage row (absent row counts as zero
usage); denies when the file-count limit is truthy and reached; denies
when projected storage exceeds the plan's storage; otherwise allows,
returning current usage and limits. -/
def checkUsageLimits (now : Int) (s : ServerState) (userId : Nat)
    (fileSize : Nat) : QuotaResult :=
  match getUserSubscription s userId with
  | none => .denied .noActiveSubscription
  | some sub =>
    if sub.currentPeriodEnd < now then .denied .subscriptionExpired
    else
      let u := getUsageRow s userId sub.id
      let currentFiles := (u.map (fun r => r.fileCount)).getD 0
      let currentStorageGb := (u.map (fun r => r.storageUsedGb)).getD 0
      let totalStorageGb := currentStorageGb + bytesToGb fileSize
      if fileLimitHit sub.maxFiles currentFiles then
        .denied (.fileLimitExceeded (sub.maxFiles.getD 0))
      else if sub.maxStorageGb < totalStorageGb then
        .denied (.storageLimitExceeded sub.maxStorageGb)
      else
        .allowed currentFiles currentStorageGb sub.maxFiles sub.maxStorageGb

/-- Current file count the evaluator uses for `userId` under `sub`. -/
def currentFilesOf (s : ServerState) (userId : Nat) (sub : Subscription) : Nat :=
  ((getUsageRow s userId sub.id).map (fun r => r.fileCount)).getD 0

/-- Current storage (GB) the evaluator uses for `userId` under `sub`. -/
def currentStorageOf (s : ServerState) (userId : Nat) (sub : Subscription) : ℚ :=
  ((getUsageRow s userId sub.id).map (fun r => r.storageUsedGb)).getD 0

/-- A state whose one user (id 0) has a subscription that expired at
time 3. -/
def stExpired : ServerState :=
  { tokens := [], uploads := [], localFiles := [],
    subs := [(0, { id := 0, currentPeriodEnd := 3, maxFiles := none,
                   maxStorageGb := 10 })],
    usage := [] }

/-- CLAIM C3, counterexample.  The claim says a snapshot whose period end
is in the past is denied with reason `NoActiveSubscription`; on the code,
`checkUsageLimits` returns the distinct reason string
`'Subscription expired'` in that case (`stripe.js` even branches on
`reason === 'Subscription expired'`), so the claim as stated is false. -/
theorem c3_expired_reason_counterexample :
    checkUsageLimits 5 stExpired 0 100 = .denied .subscriptionExpired ∧
    DenyReason.subscriptionExpired ≠ DenyReason.noActiveSubscription := by
  constructor
  · rfl
  · intro h
    cases h

/-- CLAIM C3, amended.  For every user and requested file size the
evaluator decides in this order: no active subscription row → deny with
reason `NoActiveSubscription`; period end in the past → deny with the
distinct reason `SubscriptionExpired`; a truthy (non-null, nonzero)
maximum file count that the current file count has reached → deny with
`FileLimitExceeded`; projected storage strictly above the maximum →
deny with `StorageLimitExceeded`; otherwise admit, returning the current
usage and limits. -/
theorem c3_quota_order (now : Int) (s : ServerState) (userId fileSize : Nat) :
    (getUserSubscription s userId = none →
      checkUsageLimits now s userId fileSize = .denied .noActiveSubscription) ∧
    (∀ sub, getUserSubscription s userId = some sub →
      (sub.currentPeriodEnd < now →
        checkUsageLimits now s userId fileSize = .denied .subscriptionExpired) ∧
      (¬ sub.currentPeriodEnd < now →
        (fileLimitHit sub.maxFiles (currentFilesOf s userId sub) = true →
          checkUsageLimits now s userId fileSize
            = .denied (.fileLimitExceeded (sub.maxFiles.getD 0))) ∧
        (fileLimitHit sub.maxFiles (currentFilesOf s userId sub) = false →
          (sub.maxStorageGb < currentStorageOf s userId sub + bytesToGb fileSize →
            checkUsageLimits now s userId fileSize
              = .denied (.storageLimitExceeded sub.maxStorageGb)) ∧
          (¬ sub.maxStorageGb < currentStorageOf s userId sub + bytesToGb fileSize →
            checkUsageLimits now s userId fileSize
              = .allowed (currentFilesOf s userId sub)
                  (currentStorageOf s userId sub) sub.maxFiles
                  sub.maxStorageGb)))) := by
  constructor
  · intro h
    simp [checkUsageLimits, h]
  · intro sub hsub
    constructor
    · intro hexp
      simp [checkUsageLimits, hsub, hexp]
    · intro hexp
      constructor
      · intro hfile
        simp [checkUsageLimits, hsub, hexp, currentFilesOf] at hfile ⊢
        simp [hfile]
      · intro hfile
        constructor
        · intro hstore
          simp [checkUsageLimits, hsub, hexp, currentFilesOf, currentStorageOf]
            at hfile hstore ⊢
          simp [hfile, hstore]
        · intro hstore
          simp [checkUsageLimits, hsub, hexp, currentFilesOf, currentStorageOf]
            at hfile hstore ⊢
          simp [hfile, hstore]

/-- A state whose one user (id 1) has an unexpired subscription
(period end 100, limits: 10 files, 1 GB) and usage 2 files, 1/2 GB. -/
def stActive : ServerState :=
  { tokens := [], uploads := [], localFiles := [],
    subs := [(1, { id := 4, currentPeriodEnd := 100, maxFiles := some 10,
                   maxStorageGb := 1 })],
    usage := [(1, 4, { fileCount := 2, storageUsedGb := 1/2 })] }

/-- Witness for C3 (amended): the theorem applied at time 0 to the
concrete under-quota user of `stActive`, landing in the admit branch. -/
theorem c3_quota_order_witness :
    checkUsageLimits 0 stActive 1 0
      = .allowed 2 (1/2) (some 10) 1 := by
  have h := ((c3_quota_order 0 stActive 1 0).2
      { id := 4, currentPeriodEnd := 100, maxFiles := some 10, maxStorageGb := 1 }
      rfl).2 (by decide)
  have h2 := (h.2 (by decide)).2 (by norm_num [currentStorageOf, getUsageRow,
    stActive, bytesToGb])
  simpa [currentFilesOf, currentStorageOf, getUsageRow, stActive] using h2

/-! ## Upload Admission Controller (`POST /api/upload/:token`, server.js) -/

/-- The handler's possible outcomes, one constructor per `res` call. -/
inductive AdmitResult where
  | invalidTokenFormat
  | noFiles
  | tokenNotFound
  | tokenExpired
  | uploadLimitExceeded (maxUploads : Nat)
  | success (ids : List Nat) (remainingUploads : Nat)
deriving DecidableEq

/-- The HTTP status the handler sends with each outcome. -/
def statusCode : AdmitResult → Nat
  | .invalidTokenFormat => 400
  | .noFiles => 400
  | .tokenNotFound => 404
  | .tokenExpired => 410
  | .uploadLimitExceeded _ => 413
  | .success _ _ => 200

/-- Database operations the handler can perform, in order, for the trace
returned alongside its result. -/
inductive DbOp where
  | opGetTokenByValue
  | opGetUploadsByToken
  | opCreateUpload
deriving DecidableEq

/-- `new Date() > new Date(tokenData.expires_at)` guarded by
`tokenData.expires_at &&`: a token without expiry never expires. -/
def tokenExpiredAt (now : Int) (t : TokenRecord) : Bool :=
  match t.expiresAt with
  | none => false
  | some e => decide (e < now)

/-- The default guest name `'Anonymous'`. -/
def anonymous : List Char := ['A', 'n', 'o', 'n', 'y', 'm', 'o', 'u', 's']

/-- The `for (const file of req.files)` loop: one `db.createUpload` per
file, in order; each insert returns the new row id (modelled as the row
index) and the ids are collected for the response. -/
def createUploads (userId : Nat) (tok gName gMsg : List Char) :
    List IncomingFile → List UploadRecord → List Nat × List UploadRecord
  | [], ups => ([], ups)
  | f :: fs, ups =>
    let i := ups.length
    let rest := createUploads userId tok gName gMsg fs
      (ups ++ [{ userId := userId, token := tok, filename := f.filename,
                 originalName := f.originalname, filePath := f.path,
                 guestName := gName, guestMessage := gMsg }])
    (i :: rest.1, rest.2)

/-- The body of `app.post('/api/upload/:token')` (server.js), after the
multer middleware has run: validate the token format; require a non-empty
file batch; look the token up by literal value; reject when expired;
reject when `existingUploads.length + req.files.length` exceeds
`max_uploads`; otherwise create one upload row per file and answer with
the new ids and `max_uploads - totalUploads`.  Returns the result, the
new state and the trace of database operations performed. -/
def admitHandler (now : Int) (s : ServerState) (tok : List Char)
    (files : List IncomingFile) (guestName guestMessage : Option (List Char)) :
    AdmitResult × ServerState × List DbOp :=
  if validateToken tok = false then (.invalidTokenFormat, s, [])
  else if files.isEmpty then (.noFiles, s, [])
  else
    match getTokenByValue s tok with
    | none => (.tokenNotFound, s, [.opGetTokenByValue])
    | some tokenData =>
      if tokenExpiredAt now tokenData then (.tokenExpired, s, [.opGetTokenByValue])
      else
        let total := (getUploadsByToken s tok).length + files.length
        if tokenData.maxUploads < total then
          (.uploadLimitExceeded tokenData.maxUploads, s,
            [.opGetTokenByValue, .opGetUploadsByToken])
        else
          let created := createUploads tokenData.userId tok
            (guestName.getD anonymous) (guestMessage.getD []) files s.uploads
          (.success created.1 (tokenData.maxUploads - total),
            { s with uploads := created.2 },
            [.opGetTokenByValue, .opGetUploadsByToken] ++
              files.map (fun _ => .opCreateUpload))

/-- The multer `diskStorage` middleware (server.js): every file of the
multipart batch is written to the local `uploads/` directory before the
route handler body runs. -/
def multerStage (s : ServerState) (files : List IncomingFile) : ServerState :=
  { s with localFiles := s.localFiles ++ files.map (fun f => f.path) }

/-- One full request to `POST /api/upload/:token`: the multer disk stage
followed by the handler body. -/
def handleUploadRequest (now : Int) (s : ServerState) (tok : List Char)
    (files : List IncomingFile) (guestName guestMessage : Option (List Char)) :
    AdmitResult × ServerState × List DbOp :=
  admitHandler now (multerStage s files) tok files guestName guestMessage

theorem multerStage_tokens (s : ServerState) (files : List IncomingFile) :
    (multerStage s files).tokens = s.tokens := rfl

theorem multerStage_uploads (s : ServerState) (files : List IncomingFile) :
    (multerStage s files).uploads = s.uploads := rfl

/-- CLAIM C2.  When the earlier admission checks pass (well-formed token,
non-empty batch, token found, not expired) but the token's existing
upload count plus the batch size strictly exceeds `maxUploads`, the
whole batch is rejected with `UploadLimitExceeded` (HTTP 413), no
upload row is created, and the token table is untouched — no partial
admission. -/
theorem c2_upload_limit (now : Int) (s : ServerState) (tok : List Char)
    (files : List IncomingFile) (gn gm : Option (List Char)) (td : TokenRecord)
    (hv : validateToken tok = true)
    (hf : files.isEmpty = false)
    (ht : getTokenByValue s tok = some td)
    (he : tokenExpiredAt now td = false)
    (hc : td.maxUploads < (getUploadsByToken s tok).length + files.length) :
    (handleUploadRequest now s tok files gn gm).1
      = .uploadLimitExceeded td.maxUploads ∧
    statusCode (handleUploadRequest now s tok files gn gm).1 = 413 ∧
    (handleUploadRequest now s tok files gn gm).2.1.uploads = s.uploads ∧
    (handleUploadRequest now s tok files gn gm).2.1.tokens = s.tokens := by
  have ht' : getTokenByValue (multerStage s files) tok = some td := ht
  have hu : getUploadsByToken (multerStage s files) tok
      = getUploadsByToken s tok := rfl
  simp [handleUploadRequest, admitHandler, hv, hf, ht', hu, he, hc, statusCode,
    multerStage_uploads, multerStage_tokens]

/-- A well-shaped concrete token string: 64 `'a'`s, a dot, 16 `'b'`s. -/
def tokA : List Char := List.replicate 64 'a' ++ '.' :: List.replicate 16 'b'

/-- A concrete incoming file (1 GiB). -/
def fileA : IncomingFile :=
  { filename := ['p', '1'], originalname := ['o', '1'],
    path := ['u', '/', 'p', '1'], size := 1073741824 }

/-- A state holding token `tokA` (owner 7, `maxUploads` 0, no expiry). -/
def stFull : ServerState :=
  { tokens := [{ token := tokA, userId := 7, eventName := ['e'],
                 maxUploads := 0, expiresAt := none }],
    uploads := [], localFiles := [], subs := [], usage := [] }

/-- Witness for C2: a token with `maxUploads = 0` and one incoming file
is rejected whole with HTTP 413 and no upload row. -/
theorem c2_upload_limit_witness :
    validateToken tokA = true ∧
    (handleUploadRequest 0 stFull tokA [fileA] none none).1
      = .uploadLimitExceeded 0 ∧
    (handleUploadRequest 0 stFull tokA [fileA] none none).2.1.uploads = [] := by
  have h := c2_upload_limit 0 stFull tokA [fileA] none none
    { token := tokA, userId := 7, eventName := ['e'],
      maxUploads := 0, expiresAt := none }
    (by decide) (by decide) (by decide) (by decide) (by decide)
  exact ⟨by decide, h.1, h.2.2.1⟩

/-- CLAIM C4.  A found token whose `expiresAt` lies in the past is
rejected with `TokenExpired` regardless of remaining numeric capacity
(no hypothesis constrains the upload counts), and the status for an
expired-but-existing token (410) differs from the status for an unknown
token (404). -/
theorem c4_expired_token (now e : Int) (s : ServerState) (tok : List Char)
    (files : List IncomingFile) (gn gm : Option (List Char)) (td : TokenRecord)
    (hv : validateToken tok = true)
    (hf : files.isEmpty = false)
    (ht : getTokenByValue s tok = some td)
    (he : td.expiresAt = some e)
    (hlt : e < now) :
    (handleUploadRequest now s tok files gn gm).1 = .tokenExpired ∧
    (handleUploadRequest now s tok files gn gm).2.1 = multerStage s files ∧
    statusCode AdmitResult.tokenExpired = 410 ∧
    statusCode AdmitResult.tokenNotFound = 404 := by
  have ht' : getTokenByValue (multerStage s files) tok = some td := ht
  have hexp : tokenExpiredAt now td = true := by
    simp [tokenExpiredAt, he, hlt]
  simp [handleUploadRequest, admitHandler, hv, hf, ht', hexp, statusCode]

/-- A state holding token `tokA` expired at time 10 with plenty of
numeric capacity (`maxUploads` 99). -/
def stStale : ServerState :=
  { tokens := [{ token := tokA, userId := 7, eventName := ['e'],
                 maxUploads := 99, expiresAt := some 10 }],
    uploads := [], localFiles := [], subs := [], usage := [] }

/-- Witness for C4: at time 11 the expired token of `stStale` is rejected
with `TokenExpired` even though 99 uploads remain available. -/
theorem c4_expired_token_witness :
    (10 : Int) < 11 ∧
    (handleUploadRequest 11 stStale tokA [fileA] none none).1
      = .tokenExpired := by
  have h := c4_expired_token 11 10 stStale tokA [fileA] none none
    { token := tokA, userId := 7, eventName := ['e'],
      maxUploads := 99, expiresAt := some 10 }
    (by decide) (by decide) (by decide) rfl (by decide)
  exact ⟨by decide, h.1⟩

/-- A small base state with one pre-existing local file and no tokens. -/
def stBase : ServerState :=
  { tokens := [], uploads := [],
    localFiles := [['u', '/', 'z']], subs := [], usage := [] }

/-- CLAIM C5, counterexample.  The claim says a request whose token fails
the shape check mutates no state, in particular writes no local file; on
the code, the multer `diskStorage` middleware has already written every
file of the batch to `uploads/` before the handler's `validateToken`
check runs, and the early-return rejection path does not delete them:
after a request with the malformed token `"bad"` the local file set has
grown. -/
theorem c5_no_mutation_counterexample :
    (handleUploadRequest 0 stBase ['b', 'a', 'd'] [fileA] none none).1
      = .invalidTokenFormat ∧
    (handleUploadRequest 0 stBase ['b', 'a', 'd'] [fileA] none none).2.1.localFiles
      ≠ stBase.localFiles := by
  constructor
  · rfl
  · intro h
    simp [handleUploadRequest, admitHandler, multerStage, stBase, fileA,
      validateToken, splitOnDot] at h

/-- CLAIM C5, amended.  A request whose token string fails the shape
check is rejected with a format error before any database access (the
database-operation trace is empty, and the token, upload, subscription
and usage tables are all unchanged); however, the batch's files have
already been written to local temporary storage by the multer middleware
before the handler runs, and they are not removed on this rejection
path. -/
theorem c5_format_reject (now : Int) (s : ServerState) (tok : List Char)
    (files : List IncomingFile) (gn gm : Option (List Char))
    (hv : validateToken tok = false) :
    (handleUploadRequest now s tok files gn gm).1 = .invalidTokenFormat ∧
    statusCode (handleUploadRequest now s tok files gn gm).1 = 400 ∧
    (handleUploadRequest now s tok files gn gm).2.2 = [] ∧
    (handleUploadRequest now s tok files gn gm).2.1.uploads = s.uploads ∧
    (handleUploadRequest now s tok files gn gm).2.1.tokens = s.tokens ∧
    (handleUploadRequest now s tok files gn gm).2.1.subs = s.subs ∧
    (handleUploadRequest now s tok files gn gm).2.1.usage = s.usage ∧
    (handleUploadRequest now s tok files gn gm).2.1.localFiles
      = s.localFiles ++ files.map (fun f => f.path) := by
  simp [handleUploadRequest, admitHandler, hv, statusCode, multerStage]

/-- Witness for C5 (amended): the malformed token `"bad"` is rejected
with the format error, with an empty database trace and untouched
tables, while the batch's file remains on local disk. -/
theorem c5_format_reject_witness :
    validateToken ['b', 'a', 'd'] = false ∧
    (handleUploadRequest 0 stBase ['b', 'a', 'd'] [fileA] none none).1
      = .invalidTokenFormat ∧
    (handleUploadRequest 0 stBase ['b', 'a', 'd'] [fileA] none none).2.2 = [] := by
  have h := c5_format_reject 0 stBase ['b', 'a', 'd'] [fileA] none none (by decide)
  exact ⟨by decide, h.1, h.2.2.1⟩

/-- Sum of the byte sizes of a batch of incoming files. -/
def sumSizes (files : List IncomingFile) : Nat :=
  (files.map (fun f => f.size)).sum

/-- A state in which token `tokA` (owner 7, `maxUploads` 10, no expiry)
exists and owner 7 has an active subscription with a 1 GB storage plan
already fully used (1 GB used, period end far in the future). -/
def stOverQuota : ServerState :=
  { tokens := [{ token := tokA, userId := 7, eventName := ['e'],
                 maxUploads := 10, expiresAt := none }],
    uploads := [], localFiles := [],
    subs := [(7, { id := 2, currentPeriodEnd := 1000000, maxFiles := none,
                   maxStorageGb := 1 })],
    usage := [(7, 2, { fileCount := 3, storageUsedGb := 1 })] }

/-- CLAIM C1 (code bug).  The quota evaluator `checkUsageLimits` would
deny the token owner's batch (storage limit exceeded: a 1 GiB file on a
full 1 GB plan), yet the admission handler — which never invokes
`checkUsageLimits` on any of its paths — accepts the batch, creates the
upload row, and surfaces no denial reason.  This contradicts the
repository's own SUBSCRIPTION_SETUP.md ("Usage limits enforced on file
uploads"). -/
theorem c1_quota_not_consulted :
    checkUsageLimits 0 stOverQuota 7 (sumSizes [fileA])
      = .denied (.storageLimitExceeded 1) ∧
    (handleUploadRequest 0 stOverQuota tokA [fileA] none none).1
      = .success [0] 9 ∧
    statusCode (handleUploadRequest 0 stOverQuota tokA [fileA] none none).1
      = 200 ∧
    (handleUploadRequest 0 stOverQuota tokA [fileA] none none).2.1.uploads
      ≠ stOverQuota.uploads := by
  refine ⟨?_, by decide, by decide, by decide⟩
  have hsub : getUserSubscription stOverQuota 7
      = some { id := 2, currentPeriodEnd := 1000000, maxFiles := none,
               maxStorageGb := 1 } := rfl
  have husage : getUsageRow stOverQuota 7 2
      = some { fileCount := 3, storageUsedGb := 1 } := rfl
  simp only [checkUsageLimits, hsub, husage]
  norm_num [fileLimitHit, bytesToGb, sumSizes, fileA]

/-! ## Relay Worker (googleDrive.js `processPendingUploads`, worker.js
`processFromBucketToDrive`)

The tokens JSON file maps each token to its `uploads` array; local
(respectively bucket) file existence is a list of filenames; the Google
Drive adapter calls are an oracle `ok : List Char → Bool` giving each
filename's transfer outcome for the pass; container (folder) resolution
is an `Except Unit Nat` parameter (`.error` embeds a thrown
`createFolder`).  Transition timestamps (`uploadedToDriveAt`) are elided:
no claim reads them. -/

/-- One entry of a token's `uploads` array in the tokens JSON file, as
read by `GoogleDriveUploader.processPendingUploads` (googleDrive.js). -/
structure PendingUpload where
  filename : List Char
  originalName : List Char
  mimetype : List Char
  uploadedToDrive : Bool
deriving DecidableEq

/-- State seen by a `processPendingUploads` pass: the tokens file and
the set of files present in the local uploads directory. -/
structure WorkerState where
  tokens : List (List Char × List PendingUpload)
  localFiles : List (List Char)
deriving DecidableEq

/-- Result of one inner loop or pass: the updated uploads, the updated
file set, and the two counters. -/
structure RelayOut (α : Type) where
  uploads : List α
  fsys : List (List Char)
  processed : Nat
  failed : Nat
deriving DecidableEq

/-- A pass over the whole tokens map. -/
structure RelayPass (α : Type) where
  tokens : List (List Char × List α)
  fsys : List (List Char)
  processed : Nat
  failed : Nat
deriving DecidableEq

/-- The `{processed, failed}` summary a pass reports. -/
structure PassResult where
  processed : Nat
  failed : Nat
deriving DecidableEq

/-- The inner `for (const upload of tokenData.uploads)` loop of
`processPendingUploads` (googleDrive.js): a record already
`uploadedToDrive` is skipped; otherwise, if the local file exists, a
successful adapter call marks the record, increments `processed` and
deletes the local file, while a failed call (caught per file) leaves the
record and the file alone and increments `failed`; if the local file is
missing, the record is marked `uploadedToDrive` anyway ("to avoid
retrying") and `failed` is incremented. -/
def processList (ok : List Char → Bool) :
    List PendingUpload → List (List Char) → RelayOut PendingUpload
  | [], fsys => ⟨[], fsys, 0, 0⟩
  | u :: us, fsys =>
    if u.uploadedToDrive then
      let r := processList ok us fsys
      { r with uploads := u :: r.uploads }
    else if u.filename ∈ fsys then
      if ok u.filename then
        let r := processList ok us (fsys.erase u.filename)
        { r with uploads := { u with uploadedToDrive := true } :: r.uploads,
                 processed := r.processed + 1 }
      else
        let r := processList ok us fsys
        { r with uploads := u :: r.uploads, failed := r.failed + 1 }
    else
      let r := processList ok us fsys
      { r with uploads := { u with uploadedToDrive := true } :: r.uploads,
               failed := r.failed + 1 }

/-- The outer `for (const [token, tokenData] of Object.entries(tokens))`
loop of `processPendingUploads`, threading the filesystem and summing the
counters. -/
def processTokens (ok : List Char → Bool) :
    List (List Char × List PendingUpload) → List (List Char) →
    RelayPass PendingUpload
  | [], fsys => ⟨[], fsys, 0, 0⟩
  | (t, us) :: rest, fsys =>
    let r := processList ok us fsys
    let r' := processTokens ok rest r.fsys
    ⟨(t, r.uploads) :: r'.tokens, r'.fsys,
      r.processed + r'.processed, r.failed + r'.failed⟩

/-- `GoogleDriveUploader.processPendingUploads` (googleDrive.js): returns
`{processed: 0, failed: 0}` untouched when Drive is not configured;
aborts the whole pass (the outer catch rethrows) when folder resolution
fails; otherwise runs the loops and persists the updated tokens file. -/
def processPendingUploads (driveConfigured : Bool) (folder : Except Unit Nat)
    (ok : List Char → Bool) (s : WorkerState) :
    Except Unit (PassResult × WorkerState) :=
  if !driveConfigured then .ok (⟨0, 0⟩, s)
  else
    match folder with
    | .error _ => .error ()
    | .ok _ =>
      let r := processTokens ok s.tokens s.localFiles
      .ok (⟨r.processed, r.failed⟩, ⟨r.tokens, r.fsys⟩)

/-- CLAIM C7.  In a Relay Worker pass, a pending record whose local file
is absent is marked `uploadedToDrive` (force-resolved) and counted in the
pass's failure tally while the remaining records are still processed
(first conjunct); and a record already marked is skipped by every later
pass — it contributes to neither counter and is left unchanged (second
conjunct), so a force-resolved record is never retried. -/
theorem c7_missing_file (ok : List Char → Bool) (u : PendingUpload)
    (us : List PendingUpload) (fsys : List (List Char))
    (hp : u.uploadedToDrive = false) (hm : u.filename ∉ fsys) :
    processList ok (u :: us) fsys
      = { processList ok us fsys with
          uploads := { u with uploadedToDrive := true }
            :: (processList ok us fsys).uploads,
          failed := (processList ok us fsys).failed + 1 } ∧
    (∀ v vs fs2, v.uploadedToDrive = true →
      processList ok (v :: vs) fs2
        = { processList ok vs fs2 with
            uploads := v :: (processList ok vs fs2).uploads }) := by
  constructor
  · simp [processList, hp, hm]
  · intro v vs fs2 hv
    simp [processList, hv]

/-- A concrete pending record whose local file will be absent. -/
def ghostUpload : PendingUpload :=
  { filename := ['g'], originalName := ['G'], mimetype := ['m'],
    uploadedToDrive := false }

/-- Witness for C7: with an empty local directory, processing the single
pending record `ghostUpload` marks it and reports one failure. -/
theorem c7_missing_file_witness :
    ghostUpload.uploadedToDrive = false ∧
    ghostUpload.filename ∉ ([] : List (List Char)) ∧
    processList (fun _ => true) [ghostUpload] []
      = ⟨[{ ghostUpload with uploadedToDrive := true }], [], 0, 1⟩ := by
  refine ⟨rfl, by decide, ?_⟩
  have h := (c7_missing_file (fun _ => true) ghostUpload [] [] rfl (by decide)).1
  rw [h]
  rfl

/-- One entry of a token's `uploads` array as processed by worker.js:
files staged in the GCP bucket (`uploadedToBucket`) and not yet relayed
to Drive are the candidates. -/
structure BucketUpload where
  filename : List Char
  originalName : List Char
  mimetype : List Char
  uploadedToBucket : Bool
  uploadedToDrive : Bool
deriving DecidableEq

/-- State seen by a worker.js pass: the tokens file and the set of
objects present in the GCP bucket. -/
structure BucketState where
  tokens : List (List Char × List BucketUpload)
  bucketFiles : List (List Char)
deriving DecidableEq

/-- The inner loop of `processFromBucketToDrive` (worker.js): for each
record with `uploadedToBucket && !uploadedToDrive`, the
download–upload–delete sequence is attempted (its combined outcome is the
oracle); on success the bucket object is deleted and the record marked,
on a caught failure the record and the bucket object are left alone and
`failed` is incremented; non-candidates are untouched. -/
def processBucketList (ok : List Char → Bool) :
    List BucketUpload → List (List Char) → RelayOut BucketUpload
  | [], bks => ⟨[], bks, 0, 0⟩
  | u :: us, bks =>
    if u.uploadedToBucket && !u.uploadedToDrive then
      if ok u.filename then
        let r := processBucketList ok us (bks.erase u.filename)
        { r with uploads := { u with uploadedToDrive := true } :: r.uploads,
                 processed := r.processed + 1 }
      else
        let r := processBucketList ok us bks
        { r with uploads := u :: r.uploads, failed := r.failed + 1 }
    else
      let r := processBucketList ok us bks
      { r with uploads := u :: r.uploads }

/-- The outer loop of `processFromBucketToDrive` (worker.js). -/
def processBucketTokens (ok : List Char → Bool) :
    List (List Char × List BucketUpload) → List (List Char) →
    RelayPass BucketUpload
  | [], bks => ⟨[], bks, 0, 0⟩
  | (t, us) :: rest, bks =>
    let r := processBucketList ok us bks
    let r' := processBucketTokens ok rest r.fsys
    ⟨(t, r.uploads) :: r'.tokens, r'.fsys,
      r.processed + r'.processed, r.failed + r'.failed⟩

/-- `processFromBucketToDrive` (worker.js): returns `{0, 0}` untouched
when Drive or the bucket is unconfigured; aborts the pass when folder
resolution fails (the outer catch rethrows); otherwise runs the loops and
persists the tokens file. -/
def processFromBucketToDrive (driveConfigured bucketConfigured : Bool)
    (folder : Except Unit Nat) (ok : List Char → Bool) (s : BucketState) :
    Except Unit (PassResult × BucketState) :=
  if !driveConfigured then .ok (⟨0, 0⟩, s)
  else if !bucketConfigured then .ok (⟨0, 0⟩, s)
  else
    match folder with
    | .error _ => .error ()
    | .ok _ =>
      let r := processBucketTokens ok s.tokens s.bucketFiles
      .ok (⟨r.processed, r.failed⟩, ⟨r.tokens, r.fsys⟩)

/-- CLAIM C8.  In a worker.js pass: a failure transferring a single
candidate file leaves the record in its pending state, leaves its bucket
(source) copy undeleted — the same source set is handed to the remaining
records, which are still processed — and increments the failure counter
(first conjunct); with the destination folder resolved a pass never
propagates an error, whatever the per-file outcomes (second conjunct);
and a failure resolving the destination folder aborts the entire pass
(third conjunct). -/
theorem c8_failure_isolation (ok : List Char → Bool) (u : BucketUpload)
    (us : List BucketUpload) (bks : List (List Char))
    (hb : u.uploadedToBucket = true) (hd : u.uploadedToDrive = false)
    (hfail : ok u.filename = false) :
    processBucketList ok (u :: us) bks
      = { processBucketList ok us bks with
          uploads := u :: (processBucketList ok us bks).uploads,
          failed := (processBucketList ok us bks).failed + 1 } ∧
    (∀ dc bc fol s, (processFromBucketToDrive dc bc (.ok fol) ok s).isOk = true) ∧
    (∀ s, processFromBucketToDrive true true (.error ()) ok s = .error ()) := by
  refine ⟨?_, ?_, ?_⟩
  · simp [processBucketList, hb, hd, hfail]
  · intro dc bc fol s
    cases dc <;> cases bc <;>
      simp [processFromBucketToDrive, Except.isOk, Except.toBool]
  · intro s
    simp [processFromBucketToDrive]

/-- A concrete bucket-staged record. -/
def stagedUpload : BucketUpload :=
  { filename := ['s'], originalName := ['S'], mimetype := ['m'],
    uploadedToBucket := true, uploadedToDrive := false }

/-- Witness for C8: an always-failing adapter leaves the single staged
record and its bucket object in place, reporting one failure, and the
pass still returns normally. -/
theorem c8_failure_isolation_witness :
    stagedUpload.uploadedToBucket = true ∧
    stagedUpload.uploadedToDrive = false ∧
    processBucketList (fun _ => false) [stagedUpload] [['s']]
      = ⟨[stagedUpload], [['s']], 0, 1⟩ := by
  refine ⟨rfl, rfl, ?_⟩
  have h := (c8_failure_isolation (fun _ => false) stagedUpload [] [['s']]
    rfl rfl rfl).1
  rw [h]
  rfl

/-- Every record of every token in the tokens file is marked
`uploadedToDrive`. -/
def allMigrated (toks : List (List Char × List PendingUpload)) : Bool :=
  toks.all (fun p => p.2.all (fun u => u.uploadedToDrive))

theorem processList_all_marked (ok : List Char → Bool)
    (hok : ∀ fn, ok fn = true) (us : List PendingUpload) :
    ∀ fsys, ((processList ok us fsys).uploads.all
      (fun u => u.uploadedToDrive)) = true := by
  induction us with
  | nil => intro fsys; rfl
  | cons u us ih =>
    intro fsys
    cases hu : u.uploadedToDrive
    · by_cases hm : u.filename ∈ fsys
      · simp [processList, hu, hm, hok u.filename, ih]
      · simp [processList, hu, hm, ih]
    · simp [processList, hu, ih]

theorem processTokens_all_marked (ok : List Char → Bool)
    (hok : ∀ fn, ok fn = true) (toks : List (List Char × List PendingUpload)) :
    ∀ fsys, allMigrated (processTokens ok toks fsys).tokens = true := by
  induction toks with
  | nil => intro fsys; rfl
  | cons p rest ih =>
    intro fsys
    obtain ⟨t, us⟩ := p
    have h1 := processList_all_marked ok hok us fsys
    have h2 := ih (processList ok us fsys).fsys
    simp only [allMigrated] at h2 ⊢
    simp only [processTokens, List.all_cons, Bool.and_eq_true]
    exact ⟨h1, h2⟩

theorem processList_of_all_marked (ok : List Char → Bool)
    (us : List PendingUpload) (fsys : List (List Char))
    (h : us.all (fun u => u.uploadedToDrive) = true) :
    processList ok us fsys = ⟨us, fsys, 0, 0⟩ := by
  induction us with
  | nil => rfl
  | cons u us ih =>
    simp only [List.all_cons, Bool.and_eq_true] at h
    simp [processList, h.1, ih h.2]

theorem processTokens_of_all_marked (ok : List Char → Bool)
    (toks : List (List Char × List PendingUpload)) (fsys : List (List Char))
    (h : allMigrated toks = true) :
    processTokens ok toks fsys = ⟨toks, fsys, 0, 0⟩ := by
  induction toks generalizing fsys with
  | nil => rfl
  | cons p rest ih =>
    obtain ⟨t, us⟩ := p
    simp only [allMigrated, List.all_cons, Bool.and_eq_true] at h
    simp [processTokens, processList_of_all_marked ok us fsys h.1,
      ih fsys h.2]

/-- CLAIM C9.  Two Relay Worker passes in succession with no admissions
in between: if the first pass left every record transitioned (transferred
successfully or force-resolved) — which an all-successful adapter
guarantees, first conjunct — then the second pass processes zero
additional records: `processed = 0`, `failed = 0`, state unchanged
(second conjunct). -/
theorem c9_second_pass_empty (ok1 ok2 : List Char → Bool) (f1 f2 : Nat)
    (s : WorkerState) (r1 : PassResult) (s1 : WorkerState)
    (hpass : processPendingUploads true (.ok f1) ok1 s = .ok (r1, s1)) :
    ((∀ fn, ok1 fn = true) → allMigrated s1.tokens = true) ∧
    (allMigrated s1.tokens = true →
      processPendingUploads true (.ok f2) ok2 s1
        = .ok (⟨0, 0⟩, s1)) := by
  constructor
  · intro hok
    simp only [processPendingUploads, Bool.not_true, Bool.false_eq_true,
      if_false, Except.ok.injEq, Prod.mk.injEq] at hpass
    have hs1 : s1 = ⟨(processTokens ok1 s.tokens s.localFiles).tokens,
        (processTokens ok1 s.tokens s.localFiles).fsys⟩ := hpass.2.symm
    rw [hs1]
    exact processTokens_all_marked ok1 hok s.tokens s.localFiles
  · intro hall
    simp [processPendingUploads,
      processTokens_of_all_marked ok2 s1.tokens s1.localFiles hall]

/-- A concrete one-token, one-pending-record worker state whose local
file is present. -/
def wsSample : WorkerState :=
  { tokens := [(['t'],
      [{ filename := ['f'], originalName := ['F'], mimetype := ['m'],
         uploadedToDrive := false }])],
    localFiles := [['f']] }

/-- Witness for C9: after a first pass with an all-successful adapter
over `wsSample`, the second pass reports `processed = 0, failed = 0` and
leaves the state unchanged. -/
theorem c9_second_pass_empty_witness :
    processPendingUploads true (.ok 1) (fun _ => true) wsSample
      = .ok (⟨1, 0⟩,
        ⟨[(['t'],
          [{ filename := ['f'], originalName := ['F'], mimetype := ['m'],
             uploadedToDrive := true }])], []⟩) ∧
    processPendingUploads true (.ok 1) (fun _ => true)
        ⟨[(['t'],
          [{ filename := ['f'], originalName := ['F'], mimetype := ['m'],
             uploadedToDrive := true }])], []⟩
      = .ok (⟨0, 0⟩,
        ⟨[(['t'],
          [{ filename := ['f'], originalName := ['F'], mimetype := ['m'],
             uploadedToDrive := true }])], []⟩) := by
  refine ⟨rfl, ?_⟩
  exact (c9_second_pass_empty (fun _ => true) (fun _ => true) 1 1 wsSample
    ⟨1, 0⟩ _ rfl).2 (by decide)

/-- The number of candidate records of a pass: records not yet marked
migrated across all tokens. -/
def pendingCount (toks : List (List Char × List PendingUpload)) : Nat :=
  (toks.map (fun p => (p.2.filter (fun u => !u.uploadedToDrive)).length)).sum

theorem processList_counts (ok : List Char → Bool) (us : List PendingUpload) :
    ∀ fsys, (processList ok us fsys).processed + (processList ok us fsys).failed
      = (us.filter (fun u => !u.uploadedToDrive)).length := by
  induction us with
  | nil => intro fsys; rfl
  | cons u us ih =>
    intro fsys
    cases hu : u.uploadedToDrive
    · by_cases hm : u.filename ∈ fsys
      · cases hok : ok u.filename
        · simp only [processList, hu, Bool.false_eq_true, if_false, hm,
            if_true, hok]
          simp [List.filter_cons, hu, ← ih fsys]
          omega
        · simp only [processList, hu, Bool.false_eq_true, if_false, hm,
            if_true, hok]
          simp [List.filter_cons, hu, ← ih (fsys.erase u.filename)]
          omega
      · simp only [processList, hu, Bool.false_eq_true, if_false, hm,
          if_false]
        simp [List.filter_cons, hu, ← ih fsys]
        omega
    · simp only [processList, hu, if_true]
      simp [List.filter_cons, hu, ← ih fsys]

theorem processTokens_counts (ok : List Char → Bool)
    (toks : List (List Char × List PendingUpload)) :
    ∀ fsys, (processTokens ok toks fsys).processed
        + (processTokens ok toks fsys).failed
      = pendingCount toks := by
  induction toks with
  | nil => intro fsys; rfl
  | cons p rest ih =>
    intro fsys
    obtain ⟨t, us⟩ := p
    simp only [processTokens, pendingCount, List.map_cons, List.sum_cons]
    have h1 := processList_counts ok us fsys
    have h2 := ih (processList ok us fsys).fsys
    simp only [pendingCount] at h2
    omega

/-- CLAIM C10.  The summary of a Relay Worker pass (Drive configured,
folder resolved) satisfies `processed + failed = pendingCount`:
each candidate record — a record not yet marked migrated — increments
exactly one of the two counters, so none is double-counted or dropped. -/
theorem c10_pass_summary (ok : List Char → Bool) (f : Nat) (s : WorkerState)
    (r : PassResult) (s' : WorkerState)
    (h : processPendingUploads true (.ok f) ok s = .ok (r, s')) :
    r.processed + r.failed = pendingCount s.tokens := by
  simp only [processPendingUploads, Bool.not_true, Bool.false_eq_true,
    if_false, Except.ok.injEq, Prod.mk.injEq] at h
  have hr : r = ⟨(processTokens ok s.tokens s.localFiles).processed,
      (processTokens ok s.tokens s.localFiles).failed⟩ := h.1.symm
  rw [hr]
  exact processTokens_counts ok s.tokens s.localFiles

/-- A worker state with one migrated, one pending-present and one
pending-absent record. -/
def wsMixed : WorkerState :=
  { tokens := [(['t'],
      [{ filename := ['a'], originalName := ['A'], mimetype := ['m'],
         uploadedToDrive := true },
       { filename := ['b'], originalName := ['B'], mimetype := ['m'],
         uploadedToDrive := false },
       { filename := ['c'], originalName := ['C'], mimetype := ['m'],
         uploadedToDrive := false }])],
    localFiles := [['b']] }

/-- Witness for C10: over `wsMixed` (two candidates: one transfers, one
has a missing file) the pass reports `processed + failed = 2`. -/
theorem c10_pass_summary_witness :
    (1 : Nat) + 1 = pendingCount wsMixed.tokens ∧
    pendingCount wsMixed.tokens = 2 := by
  constructor
  · exact c10_pass_summary (fun _ => true) 1 wsMixed ⟨1, 1⟩
      ⟨[(['t'],
        [{ filename := ['a'], originalName := ['A'], mimetype := ['m'],
           uploadedToDrive := true },
         { filename := ['b'], originalName := ['B'], mimetype := ['m'],
           uploadedToDrive := true },
         { filename := ['c'], originalName := ['C'], mimetype := ['m'],
           uploadedToDrive := true }])], []⟩ rfl
  · decide

end GuestPhoto
